import Mathlib

/-!
Verification of the personal-training backend (`server.js`).

The server keeps all state in a single JSON document (`database.json`)
holding an admin credential and four collections: clients, programs,
tickets and recipes.  Every API handler performs load-mutate-save on that
document.  We embed the document as the structure `DB` below and each API
handler as a pure function `input -> DB -> ApiResult x DB`, where the
returned `DB` is the persisted store after the handler ran (equal to the
input store when the handler does not call `saveDB`).

Environment inputs of the JavaScript runtime are passed explicitly:
`Date.now()` becomes a `now : Nat` argument (epoch milliseconds),
`new Date().toISOString()` becomes a `nowIso : String` argument, the
outcome of `fs.writeFileSync` for an attachment becomes a `writeOk : Bool`
argument (`false` models a thrown and caught write error), and the
calendar computation `new Date(startDate); end.setMonth(end.getMonth() +
parseInt(duration))` becomes an abstract `endOf : String -> Int -> Int`
argument giving the epoch milliseconds of `startDate + duration months`.

JavaScript truthiness of request-body fields is embedded as follows: a
field tested with `if (!x)` is a `String` where the empty string stands
for every falsy value, and a field tested for truthiness before use is an
`Option` whose `none` stands for every falsy value (absent, `null`,
empty string, `0`).
-/

/-- Character table of `Number.prototype.toString(36)`: digit `0..9` maps
to the ASCII digits, digit `10..35` to the lowercase letters. -/
def base36Char (d : Nat) : Char :=
  if d < 10 then Char.ofNat (48 + d) else Char.ofNat (87 + d)

/-- Digit loop of `Number.prototype.toString(36)` for a nonnegative
integer, with explicit fuel (the fuel is always sufficient: the number of
base-36 digits of `n` is at most `n`). -/
def toBase36Go : Nat → Nat → List Char → List Char
  | 0, _, acc => acc
  | fuel + 1, n, acc =>
    if n = 0 then acc else toBase36Go fuel (n / 36) (base36Char (n % 36) :: acc)

/-- The id token `Date.now().toString(36)` as a function of the current
epoch milliseconds `n`. -/
def toBase36 (n : Nat) : String :=
  if n = 0 then "0" else String.mk (toBase36Go (n + 1) n [])

/-- Character class `[A-Za-z0-9_.-]` of the attachment-name sanitizer. -/
def safeChar (c : Char) : Bool :=
  c.isAlphanum || c == '_' || c == '.' || c == '-'

/-- The sanitizer `fileName.replace(/[^A-Za-z0-9_.-]/g, '')`. -/
def sanitizeName (s : String) : String :=
  String.mk (s.data.filter safeChar)

/-- Relative path stored for an uploaded attachment:
`'/uploads/' + Date.now().toString(36) + '_' + <sanitized fileName>`. -/
def attachmentPath (now : Nat) (fileName : String) : String :=
  "/uploads/" ++ toBase36 now ++ "_" ++ sanitizeName fileName

/-- A client record of the `clients` collection.  `daysLeft` is the
derived field written by GET `/api/clients`; `none` stands for the field
being absent or `null`. -/
structure Client where
  id : String
  name : String
  email : String
  startDate : Option String
  active : Bool
  duration : Option Int
  daysLeft : Option Int
deriving DecidableEq, Repr

/-- A program record of the `programs` collection. -/
structure Program where
  id : String
  title : String
  description : String
  image : Option String
deriving DecidableEq, Repr

/-- A message of a ticket thread. `text` and `attachment` are optional
fields of the stored JSON object. -/
structure Message where
  sender : String
  time : String
  text : Option String
  attachment : Option String
deriving DecidableEq, Repr

/-- A ticket record of the `tickets` collection. -/
structure Ticket where
  id : String
  email : String
  password : String
  created : String
  status : String
  messages : List Message
deriving DecidableEq, Repr

/-- A recipe record of the `recipes` collection. -/
structure Recipe where
  id : String
  title : String
  ingredients : String
  instructions : String
  image : Option String
deriving DecidableEq, Repr

/-- The admin credential record fixed by `initDB`. -/
structure Admin where
  username : String
  password : String
deriving DecidableEq, Repr

/-- The persisted JSON document (`database.json`). -/
structure DB where
  admin : Admin
  clients : List Client
  programs : List Program
  tickets : List Ticket
  recipes : List Recipe
deriving DecidableEq, Repr

/-- The document created by `initDB` when no database file exists. -/
def initialDB : DB :=
  { admin := { username := "admin", password := "admin123" },
    clients := [], programs := [], tickets := [], recipes := [] }

/-- Outcome of an API handler: `ok` carries the JSON success payload,
`badRequest` is a 400 `{error}` response and `notFound` a 404 `{error}`
response. -/
inductive ApiResult (α : Type) where
  | ok (a : α)
  | badRequest (msg : String)
  | notFound (msg : String)
deriving DecidableEq, Repr

/-- Mutation of the first list entry satisfying `p`, leaving the rest
unchanged: the effect of `const x = list.find(p); mutate(x)` on the
surrounding array. -/
def updateFirst (p : α → Bool) (f : α → α) : List α → List α
  | [] => []
  | a :: as => if p a then f a :: as else a :: updateFirst p f as

/-- Milliseconds in a day, the divisor `1000 * 3600 * 24`. -/
def msPerDay : Int := 1000 * 3600 * 24

/-- Exact `Math.ceil(a / b)` on integers for a positive divisor. -/
def ceilDiv (a b : Int) : Int := -(Int.fdiv (-a) b)

/-- Body of POST `/api/clients` after destructuring. -/
structure ClientBody where
  name : String := ""
  email : String := ""
  startDate : Option String := none
  active : Option Bool := none
  duration : Option Int := none
deriving DecidableEq, Repr

/-- POST `/api/clients`: validates `name`/`email`, then appends a client
with id `Date.now().toString(36)`, `startDate || <today>`, `active !==
false` and `duration || null` (a duration of `0` is falsy and stored as
`null`). -/
def postClient (now : Nat) (today : String) (b : ClientBody) (db : DB) :
    ApiResult String × DB :=
  if b.name = "" ∨ b.email = "" then
    (.badRequest "name and email required", db)
  else
    let id := toBase36 now
    let c : Client :=
      { id := id, name := b.name, email := b.email,
        startDate := some (b.startDate.getD today),
        active := if b.active = some false then false else true,
        duration := if b.duration = some 0 then none else b.duration,
        daysLeft := none }
    (.ok id, { db with clients := db.clients ++ [c] })

/-- Per-client body of the GET `/api/clients` loop: when both `startDate`
and `duration` are truthy, sets `daysLeft` to `Math.ceil((end - now) /
msPerDay)` clamped below at `0` and flips `active` to `false` when the
raw day count is nonpositive; otherwise sets `daysLeft` to `null`. -/
def updateClient (endOf : String → Int → Int) (now : Int) (c : Client) : Client :=
  match c.startDate, c.duration with
  | some s, some d =>
    let dl := ceilDiv (endOf s d - now) msPerDay
    let c1 := { c with daysLeft := some (if dl > 0 then dl else 0) }
    if c1.active ∧ dl ≤ 0 then { c1 with active := false } else c1
  | _, _ => { c with daysLeft := none }

/-- Whether the GET `/api/clients` loop sets `updated = true` for this
client, i.e. whether the client is active and expired. -/
def clientFlips (endOf : String → Int → Int) (now : Int) (c : Client) : Bool :=
  match c.startDate, c.duration with
  | some s, some d => c.active && decide (ceilDiv (endOf s d - now) msPerDay ≤ 0)
  | _, _ => false

/-- GET `/api/clients`: recomputes every client and calls `saveDB` only
when some `active` flag flipped.  Returns the response list and the
persisted store. -/
def getClients (endOf : String → Int → Int) (now : Int) (db : DB) :
    List Client × DB :=
  let clients := db.clients.map (updateClient endOf now)
  let updated := db.clients.any (clientFlips endOf now)
  (clients, if updated then { db with clients := clients } else db)

/-- Body of POST `/api/programs` after destructuring. -/
structure ProgramBody where
  title : Option String := none
  description : Option String := none
  image : Option String := none
deriving DecidableEq, Repr

/-- POST `/api/programs`: validates `title`, then appends a program with
id `Date.now().toString(36)`, `description || ''` and `image || null`. -/
def postProgram (now : Nat) (b : ProgramBody) (db : DB) :
    ApiResult String × DB :=
  match b.title with
  | none => (.badRequest "title required", db)
  | some title =>
    let id := toBase36 now
    (.ok id,
     { db with programs := db.programs ++
        [{ id := id, title := title, description := b.description.getD "",
           image := b.image }] })

/-- Body of POST `/api/support/create` after destructuring. -/
structure SupportBody where
  email : String := ""
  password : String := ""
  message : Option String := none
  file : Option String := none
  fileName : Option String := none
deriving DecidableEq, Repr

/-- Attachment field stored on a message: present exactly when both
`file` and `fileName` were supplied and `fs.writeFileSync` succeeded (a
write error is caught and only logged). -/
def attachmentOf (now : Nat) (writeOk : Bool) (file fileName : Option String) :
    Option String :=
  match file, fileName with
  | some _, some fn => if writeOk then some (attachmentPath now fn) else none
  | _, _ => none

/-- POST `/api/support/create`: validates `email`/`password`, builds a
ticket with status `open` and an optional initial client message (created
when `message || (file && fileName)` is truthy), appends it and returns
the full ticket with HTTP 201. -/
def supportCreate (now : Nat) (nowIso : String) (writeOk : Bool)
    (b : SupportBody) (db : DB) : ApiResult Ticket × DB :=
  if b.email = "" ∨ b.password = "" then
    (.badRequest "email and password required", db)
  else
    let msgs : List Message :=
      if b.message.isSome ∨ (b.file.isSome ∧ b.fileName.isSome) then
        [{ sender := "client", time := nowIso, text := b.message,
           attachment := attachmentOf now writeOk b.file b.fileName }]
      else []
    let t : Ticket :=
      { id := toBase36 now, email := b.email, password := b.password,
        created := nowIso, status := "open", messages := msgs }
    (.ok t, { db with tickets := db.tickets ++ [t] })

/-- GET `/api/tickets/:id`: linear lookup, 404 when absent; the store is
not rewritten. -/
def getTicket (id : String) (db : DB) : ApiResult Ticket :=
  match db.tickets.find? (fun t => t.id == id) with
  | some t => .ok t
  | none => .notFound "not found"

/-- Body of POST `/api/tickets/:id/message` after destructuring. -/
structure MsgBody where
  sender : Option String := none
  text : Option String := none
  file : Option String := none
  fileName : Option String := none
deriving DecidableEq, Repr

/-- The message object built by POST `/api/tickets/:id/message`:
`sender || 'client'`, the current ISO time, the text when truthy, and the
attachment path when the upload was written. -/
def buildMsg (now : Nat) (nowIso : String) (writeOk : Bool) (b : MsgBody) :
    Message :=
  { sender := b.sender.getD "client", time := nowIso, text := b.text,
    attachment := attachmentOf now writeOk b.file b.fileName }

/-- POST `/api/tickets/:id/message`: rejects a body with neither `text`
nor `file` with 400 before touching the store, 404 when the ticket id is
unknown, otherwise pushes the built message onto the addressed ticket and
saves. -/
def postTicketMessage (now : Nat) (nowIso : String) (writeOk : Bool)
    (id : String) (b : MsgBody) (db : DB) : ApiResult Unit × DB :=
  if b.text = none ∧ b.file = none then
    (.badRequest "text or file required", db)
  else if db.tickets.any (fun t => t.id == id) then
    (.ok (),
     { db with tickets := (updateFirst (fun t => t.id == id)
        (fun t => { t with messages := t.messages ++ [buildMsg now nowIso writeOk b] })
        db.tickets) })
  else (.notFound "not found", db)

/-- Fixed text of the system message appended when a ticket is closed. -/
def closedText : String := "Destek talebiniz kapatıldı."

/-- Fixed text of the system message appended when a ticket is reopened. -/
def reopenedText : String := "Destek talebiniz yeniden açıldı."

/-- Status update applied by PUT `/api/tickets/:id` to the addressed
ticket: when the body `status` is truthy it overwrites the status and
appends an admin system message on the transitions to `closed` from a
non-closed status and to `open` from `closed`; a falsy status leaves the
ticket unchanged. -/
def applyStatus (nowIso : String) (status : Option String) (t : Ticket) : Ticket :=
  match status with
  | none => t
  | some st =>
    let oldStatus := if t.status = "" then "open" else t.status
    let t1 := { t with status := st }
    let t2 :=
      if st = "closed" ∧ oldStatus ≠ "closed" then
        { t1 with messages := t1.messages ++
            [{ sender := "admin", time := nowIso, text := some closedText,
               attachment := none }] }
      else t1
    if st = "open" ∧ oldStatus = "closed" then
      { t2 with messages := t2.messages ++
          [{ sender := "admin", time := nowIso, text := some reopenedText,
             attachment := none }] }
    else t2

/-- PUT `/api/tickets/:id`: 404 when the id is unknown, otherwise applies
`applyStatus` to the first matching ticket and saves. -/
def putTicket (id : String) (status : Option String) (nowIso : String)
    (db : DB) : ApiResult Unit × DB :=
  if db.tickets.any (fun t => t.id == id) then
    (.ok (),
     { db with tickets := (updateFirst (fun t => t.id == id)
        (applyStatus nowIso status) db.tickets) })
  else (.notFound "not found", db)

/-- DELETE `/api/tickets/:id`: `findIndex` plus `splice(index, 1)`, i.e.
removal of the first matching ticket; 404 when the id is unknown. -/
def deleteTicket (id : String) (db : DB) : ApiResult Unit × DB :=
  if db.tickets.any (fun t => t.id == id) then
    (.ok (), { db with tickets := db.tickets.eraseP (fun t => t.id == id) })
  else (.notFound "not found", db)

/-- GET `/api/recipes`: returns `db.recipes || []` (the collection is
always present in the embedded store). -/
def getRecipes (db : DB) : List Recipe := db.recipes

/-- Body of POST `/api/recipes` after destructuring. -/
structure RecipePostBody where
  title : Option String := none
  ingredients : Option String := none
  instructions : Option String := none
  image : Option String := none
deriving DecidableEq, Repr

/-- POST `/api/recipes`: validates `title`, then appends a recipe with id
`Date.now().toString(36)`, `ingredients || ''`, `instructions || ''` and
`image || null`. -/
def postRecipe (now : Nat) (b : RecipePostBody) (db : DB) :
    ApiResult String × DB :=
  match b.title with
  | none => (.badRequest "title required", db)
  | some title =>
    let id := toBase36 now
    (.ok id,
     { db with recipes := db.recipes ++
        [{ id := id, title := title, ingredients := b.ingredients.getD "",
           instructions := b.instructions.getD "", image := b.image }] })

/-- Body of PUT `/api/recipes/:id`; each field is updated only when it is
not `undefined`, so `none` here means the field was absent from the JSON
body (an explicit `null` image is `some none`). -/
structure RecipePutBody where
  title : Option String := none
  ingredients : Option String := none
  instructions : Option String := none
  image : Option (Option String) := none
deriving DecidableEq, Repr

/-- PUT `/api/recipes/:id`: 404 when the id is unknown, otherwise applies
the partial field updates to the first matching recipe and saves. -/
def putRecipe (id : String) (b : RecipePutBody) (db : DB) :
    ApiResult Unit × DB :=
  if db.recipes.any (fun r => r.id == id) then
    (.ok (),
     { db with recipes := (updateFirst (fun r => r.id == id)
        (fun r =>
          { r with title := b.title.getD r.title,
                   ingredients := b.ingredients.getD r.ingredients,
                   instructions := b.instructions.getD r.instructions,
                   image := b.image.getD r.image })
        db.recipes) })
  else (.notFound "not found", db)

/-- DELETE `/api/recipes/:id`: removal of the first matching recipe; 404
when the id is unknown. -/
def deleteRecipe (id : String) (db : DB) : ApiResult Unit × DB :=
  if db.recipes.any (fun r => r.id == id) then
    (.ok (), { db with recipes := db.recipes.eraseP (fun r => r.id == id) })
  else (.notFound "not found", db)

/-- GET `/api/user/ticket?email&password`: 400 when a parameter is falsy,
otherwise filters the tickets on exact email and password equality, 404
when nothing matches, and otherwise sorts the matches by `created`
descending (`(a, b) => new Date(b.created) - new Date(a.created)`, a
stable sort) and returns the first element.  `timeOf` abstracts
`new Date(s).getTime()`.  The store is never rewritten. -/
def userTicket (timeOf : String → Int) (email password : String) (db : DB) :
    ApiResult Ticket × DB :=
  if email = "" ∨ password = "" then
    (.badRequest "email and password required", db)
  else
    let found := db.tickets.filter (fun t => t.email == email && t.password == password)
    if found.isEmpty then (.notFound "no tickets found", db)
    else
      match found.mergeSort (fun a b => decide (timeOf b.created ≤ timeOf a.created)) with
      | [] => (.notFound "no tickets found", db)
      | t :: _ => (.ok t, db)

/-- Startup check of `req.url.startsWith(p)` in the router, over the
underlying character lists (JavaScript `startsWith` compares code
units). -/
def strStartsWith (s p : String) : Bool := p.data.isPrefixOf s.data

/-- Split of a path string at every `/`, the component list underlying
`path.posix` processing (an empty string yields one empty component). -/
def splitSlashAux : List Char → List Char → List (List Char)
  | [], acc => [acc.reverse]
  | c :: cs, acc =>
    if c = '/' then acc.reverse :: splitSlashAux cs [] else splitSlashAux cs (c :: acc)

/-- Components of a path string. -/
def pathComponents (s : String) : List String :=
  (splitSlashAux s.data []).map String.mk

/-- One component step of Node's `normalizeString` (the core of
`path.posix.normalize`), with the stack kept in reverse order: empty and
`.` components are skipped; `..` pops a regular component, is pushed when
the path may go above its root (a relative path) and is dropped otherwise
(an absolute path); any other component is pushed. -/
def normStep (allowAboveRoot : Bool) (stack : List String) (c : String) :
    List String :=
  if c = "" ∨ c = "." then stack
  else if c = ".." then
    match stack with
    | [] => if allowAboveRoot then [".."] else []
    | top :: rest => if top = ".." then ".." :: top :: rest else rest
  else c :: stack

/-- Component list of `path.posix.normalize` applied to a path with the
given components; `abs` tells whether the path is absolute (Node passes
`allowAboveRoot = !isAbsolute`). -/
def normalizeComponents (abs : Bool) (cs : List String) : List String :=
  (cs.foldl (normStep (!abs)) []).reverse

/-- Filesystem components of the file `serveStatic` reads, relative to
the filesystem root, for a public directory with components `publicDir`:
the request path defaults to `/index.html` at the root, is normalized,
has its leading slashes stripped (component-wise: the normalized
component list of the path, taken relative), and is joined to the public
directory, `path.join` normalizing the concatenation again. -/
def serveStaticResolved (publicDir : List String) (url : String) :
    List String :=
  let reqPath := if url = "/" ∨ url = "" then "/index.html" else url
  let abs := strStartsWith reqPath "/"
  let safeComponents := normalizeComponents abs (pathComponents reqPath)
  normalizeComponents true (publicDir ++ safeComponents)

/-- Whether the path with components `p` is the directory `root` or lies
beneath it. -/
def underDir (root p : List String) : Bool := root.isPrefixOf p

/-- A sanely named directory component: nonempty and neither `.` nor
`..` (true of every component of `path.join(__dirname, 'public')`). -/
def plainComponent (c : String) : Bool := !(c == "" || c == "." || c == "..")

/-- One mutating API call together with the environment values the
JavaScript runtime supplies while handling it.  GET `/api/clients` is
included because it can rewrite the store; the remaining GET handlers and
POST `/api/login` never write and are omitted. -/
inductive Op where
  | clientPost (b : ClientBody) (now : Nat) (today : String)
  | clientsGet (endOf : String → Int → Int) (now : Int)
  | programPost (b : ProgramBody) (now : Nat)
  | supportPost (b : SupportBody) (now : Nat) (nowIso : String) (writeOk : Bool)
  | ticketMsg (id : String) (b : MsgBody) (now : Nat) (nowIso : String) (writeOk : Bool)
  | ticketPut (id : String) (status : Option String) (nowIso : String)
  | ticketDelete (id : String)
  | recipePost (b : RecipePostBody) (now : Nat)
  | recipePut (id : String) (b : RecipePutBody)
  | recipeDelete (id : String)

/-- Store transition of one API call (the store the handler persists). -/
def step (op : Op) (db : DB) : DB :=
  match op with
  | .clientPost b now today => (postClient now today b db).2
  | .clientsGet endOf now => (getClients endOf now db).2
  | .programPost b now => (postProgram now b db).2
  | .supportPost b now nowIso writeOk => (supportCreate now nowIso writeOk b db).2
  | .ticketMsg id b now nowIso writeOk => (postTicketMessage now nowIso writeOk id b db).2
  | .ticketPut id status nowIso => (putTicket id status nowIso db).2
  | .ticketDelete id => (deleteTicket id db).2
  | .recipePost b now => (postRecipe now b db).2
  | .recipePut id b => (putRecipe id b db).2
  | .recipeDelete id => (deleteRecipe id db).2

/-- Store reached after a sequence of API calls. -/
def run (ops : List Op) (db : DB) : DB :=
  ops.foldl (fun d op => step op d) db

/-- The id tokens offered to client creations of an operation list. -/
def clientTokens : List Op → List String
  | [] => []
  | .clientPost _ now _ :: ops => toBase36 now :: clientTokens ops
  | _ :: ops => clientTokens ops

/-- The id tokens offered to program creations of an operation list. -/
def programTokens : List Op → List String
  | [] => []
  | .programPost _ now :: ops => toBase36 now :: programTokens ops
  | _ :: ops => programTokens ops

/-- The id tokens offered to ticket creations of an operation list. -/
def ticketTokens : List Op → List String
  | [] => []
  | .supportPost _ now _ _ :: ops => toBase36 now :: ticketTokens ops
  | _ :: ops => ticketTokens ops

/-- The id tokens offered to recipe creations of an operation list. -/
def recipeTokens : List Op → List String
  | [] => []
  | .recipePost _ now :: ops => toBase36 now :: recipeTokens ops
  | _ :: ops => recipeTokens ops

/-- Whether an operation only ever submits `open` or `closed` (or no
status at all) to PUT `/api/tickets/:id`. -/
def statusAllowed : Op → Bool
  | .ticketPut _ status _ =>
    status == none || status == some "open" || status == some "closed"
  | _ => true

/-- A sample open ticket used as concrete input. -/
def ticketOpen : Ticket :=
  { id := "t0", email := "a@b.c", password := "pw",
    created := "2024-01-01T00:00:00.000Z", status := "open", messages := [] }

/-- A sample closed ticket used as concrete input. -/
def ticketClosed : Ticket := { ticketOpen with id := "t1", status := "closed" }

/-- A store holding one open ticket, used as concrete input. -/
def dbOneTicket : DB := { initialDB with tickets := [ticketOpen] }

/-- A sample client with a start date and duration, used as concrete
input. -/
def clientSix : Client :=
  { id := "c0", name := "Ada", email := "ada@x.y",
    startDate := some "2024-01-01", active := true, duration := some 6,
    daysLeft := none }

/-- A store holding the sample client, used as concrete input. -/
def dbOneClient : DB := { initialDB with clients := [clientSix] }

/-- A store holding two tickets with the same credentials and different
creation times, used as concrete input. -/
def dbTwoTickets : DB :=
  { initialDB with tickets :=
      [{ ticketOpen with id := "t0", created := "A" },
       { ticketOpen with id := "t1", created := "AAA" }] }

lemma toBase36Go_length (fuel : Nat) : ∀ (n : Nat) (acc : List Char),
    acc.length ≤ (toBase36Go fuel n acc).length := by
  induction fuel with
  | zero => intro n acc; simp [toBase36Go]
  | succ fuel ih =>
    intro n acc
    simp only [toBase36Go]
    split
    · exact le_refl _
    · exact le_trans (Nat.le_succ _) (ih (n / 36) (base36Char (n % 36) :: acc))

lemma toBase36_ne_empty (n : Nat) : toBase36 n ≠ "" := by
  intro hcon
  have hdata := congrArg String.data hcon
  unfold toBase36 at hdata
  by_cases h : n = 0
  · simp [h] at hdata
  · simp only [h, if_false] at hdata
    have hlen : 1 ≤ (toBase36Go (n + 1) n []).length := by
      have h2 := toBase36Go_length n (n / 36) [base36Char (n % 36)]
      simpa [toBase36Go, h] using h2
    rw [hdata] at hlen
    simp at hlen

/-- C9: POST `/api/recipes` with body `{title: "Salad"}` succeeds with
the non-empty generated id token, and a subsequent GET `/api/recipes`
returns a collection containing the recipe
`{id, title: "Salad", ingredients: "", instructions: "", image: null}`
with that id and all submitted fields intact. -/
theorem recipe_post_get_roundtrip (now : Nat) (db : DB) :
    (postRecipe now { title := some "Salad" } db).1 = .ok (toBase36 now) ∧
    toBase36 now ≠ "" ∧
    ({ id := toBase36 now, title := "Salad", ingredients := "",
       instructions := "", image := none } : Recipe) ∈
      getRecipes (postRecipe now { title := some "Salad" } db).2 := by
  refine ⟨rfl, toBase36_ne_empty now, ?_⟩
  simp [postRecipe, getRecipes, Option.getD]

/-- C10: a message posted to a ticket without a `sender` field is stored
with sender `client` (the handler appends exactly the built message to
the addressed ticket), and the optional initial message created by POST
`/api/support/create` always has sender `client`. -/
theorem message_sender_defaults_to_client
    (now : Nat) (nowIso : String) (writeOk : Bool) (db : DB) :
    (∀ b : MsgBody, b.sender = none → (buildMsg now nowIso writeOk b).sender = "client") ∧
    (∀ (id : String) (b : MsgBody), ¬(b.text = none ∧ b.file = none) →
      db.tickets.any (fun t => t.id == id) = true →
      (postTicketMessage now nowIso writeOk id b db).2.tickets =
        updateFirst (fun t => t.id == id)
          (fun t => { t with messages := t.messages ++ [buildMsg now nowIso writeOk b] })
          db.tickets) ∧
    (∀ sb : SupportBody, sb.email ≠ "" → sb.password ≠ "" →
      ∃ t, (supportCreate now nowIso writeOk sb db).1 = .ok t ∧
        ∀ m ∈ t.messages, m.sender = "client") := by
  refine ⟨?_, ?_, ?_⟩
  · intro b hb
    simp [buildMsg, hb]
  · intro id b hvalid hfound
    simp [postTicketMessage, hvalid, hfound]
  · intro sb he hp
    refine ⟨{ id := toBase36 now, email := sb.email, password := sb.password,
              created := nowIso, status := "open",
              messages :=
                if sb.message.isSome ∨ (sb.file.isSome ∧ sb.fileName.isSome) then
                  [{ sender := "client", time := nowIso, text := sb.message,
                     attachment := attachmentOf now writeOk sb.file sb.fileName }]
                else [] }, ?_, ?_⟩
    · simp [supportCreate, he, hp]
    · intro m hm
      simp only at hm
      split at hm
      · simp at hm
        rw [hm]
      · simp at hm

/-- C10 witness: concrete instances of the three parts at a one-ticket
store. -/
theorem message_sender_defaults_to_client_witness :
    (buildMsg 5 "T1" true { text := some "hi" }).sender = "client" ∧
    (postTicketMessage 5 "T1" true "t0" { text := some "hi" } dbOneTicket).2.tickets =
      updateFirst (fun t => t.id == "t0")
        (fun t => { t with messages := t.messages ++ [buildMsg 5 "T1" true { text := some "hi" }] })
        dbOneTicket.tickets ∧
    ∃ t, (supportCreate 5 "T1" true { email := "a@b.c", password := "pw", message := some "help" } dbOneTicket).1 = .ok t ∧
      ∀ m ∈ t.messages, m.sender = "client" :=
  ⟨(message_sender_defaults_to_client 5 "T1" true dbOneTicket).1 _ rfl,
   (message_sender_defaults_to_client 5 "T1" true dbOneTicket).2.1 "t0" _ (by decide) (by decide),
   (message_sender_defaults_to_client 5 "T1" true dbOneTicket).2.2 _ (by decide) (by decide)⟩

/-- C8: when the attachment write fails (`writeOk = false`, the thrown
error being caught and logged), POST `/api/support/create` still answers
with the created ticket and persists it, and POST
`/api/tickets/:id/message` still answers success and persists the
message; in both cases the stored message has no attachment field. -/
theorem attachment_write_failure_is_not_fatal
    (now : Nat) (nowIso : String) (db : DB) (f fn : String) :
    (∀ sb : SupportBody, sb.email ≠ "" → sb.password ≠ "" →
      sb.file = some f → sb.fileName = some fn →
      ∃ t, supportCreate now nowIso false sb db =
          (.ok t, { db with tickets := db.tickets ++ [t] }) ∧
        ∀ m ∈ t.messages, m.attachment = none) ∧
    (∀ (id : String) (b : MsgBody), b.file = some f → b.fileName = some fn →
      db.tickets.any (fun t => t.id == id) = true →
      (postTicketMessage now nowIso false id b db).1 = .ok () ∧
      (buildMsg now nowIso false b).attachment = none ∧
      (postTicketMessage now nowIso false id b db).2.tickets =
        updateFirst (fun t => t.id == id)
          (fun t => { t with messages := t.messages ++ [buildMsg now nowIso false b] })
          db.tickets) := by
  constructor
  · intro sb he hp hf hfn
    refine ⟨{ id := toBase36 now, email := sb.email, password := sb.password,
              created := nowIso, status := "open",
              messages :=
                if sb.message.isSome ∨ (sb.file.isSome ∧ sb.fileName.isSome) then
                  [{ sender := "client", time := nowIso, text := sb.message,
                     attachment := attachmentOf now false sb.file sb.fileName }]
                else [] }, ?_, ?_⟩
    · simp [supportCreate, he, hp]
    · intro m hm
      simp only at hm
      split at hm
      · simp at hm
        rw [hm, hf, hfn]
        simp [attachmentOf]
      · simp at hm
  · intro id b hf hfn hfound
    have hvalid : ¬(b.text = none ∧ b.file = none) := by
      intro hcon
      rw [hf] at hcon
      exact Option.some_ne_none f hcon.2
    refine ⟨?_, ?_, ?_⟩
    · simp [postTicketMessage, hvalid, hfound]
    · simp [buildMsg, hf, hfn, attachmentOf]
    · simp [postTicketMessage, hvalid, hfound]

/-- C8 witness: a failed write during ticket creation and during message
append, at a one-ticket store. -/
theorem attachment_write_failure_is_not_fatal_witness :
    (∃ t, supportCreate 5 "T1" false
        { email := "a@b.c", password := "pw", message := some "help",
          file := some "QUJD", fileName := some "a b.png" } dbOneTicket =
        (.ok t, { dbOneTicket with tickets := dbOneTicket.tickets ++ [t] }) ∧
      ∀ m ∈ t.messages, m.attachment = none) ∧
    ((postTicketMessage 5 "T1" false "t0"
        { file := some "QUJD", fileName := some "a b.png" } dbOneTicket).1 = .ok () ∧
     (buildMsg 5 "T1" false { file := some "QUJD", fileName := some "a b.png" }).attachment = none ∧
     (postTicketMessage 5 "T1" false "t0"
        { file := some "QUJD", fileName := some "a b.png" } dbOneTicket).2.tickets =
       updateFirst (fun t => t.id == "t0")
         (fun t => { t with messages := t.messages ++
            [buildMsg 5 "T1" false { file := some "QUJD", fileName := some "a b.png" }] })
         dbOneTicket.tickets) :=
  ⟨(attachment_write_failure_is_not_fatal 5 "T1" dbOneTicket "QUJD" "a b.png").1
      _ (by decide) (by decide) rfl rfl,
   (attachment_write_failure_is_not_fatal 5 "T1" dbOneTicket "QUJD" "a b.png").2
      "t0" _ rfl rfl (by decide)⟩

/-- C2: PUT `/api/tickets/:id` with status `closed` on a not-yet-closed
ticket appends exactly one admin message with the fixed closing text;
the same request on an already closed ticket appends nothing; PUT with
status `open` on a closed ticket appends exactly one admin message with
the fixed reopening text; and the endpoint applies this transition to
the addressed ticket. -/
theorem ticket_close_reopen_messages (nowIso : String) (t : Ticket) :
    (t.status ≠ "closed" →
      (applyStatus nowIso (some "closed") t).messages =
        t.messages ++ [{ sender := "admin", time := nowIso,
                         text := some closedText, attachment := none }] ∧
      (applyStatus nowIso (some "closed") t).status = "closed") ∧
    (t.status = "closed" →
      applyStatus nowIso (some "closed") t = { t with status := "closed" }) ∧
    (t.status = "closed" →
      (applyStatus nowIso (some "open") t).messages =
        t.messages ++ [{ sender := "admin", time := nowIso,
                         text := some reopenedText, attachment := none }]) ∧
    (∀ (db : DB) (id : String) (status : Option String),
      db.tickets.any (fun u => u.id == id) = true →
      (putTicket id status nowIso db).2.tickets =
        updateFirst (fun u => u.id == id) (applyStatus nowIso status) db.tickets) := by
  refine ⟨?_, ?_, ?_, ?_⟩
  · intro h
    have hold : (if t.status = "" then "open" else t.status) ≠ "closed" := by
      split
      · decide
      · exact h
    constructor
    · simp [applyStatus, hold]
    · simp [applyStatus, hold]
  · intro h
    have hne : t.status ≠ "" := by rw [h]; decide
    simp [applyStatus, hne, h]
  · intro h
    have hne : t.status ≠ "" := by rw [h]; decide
    simp [applyStatus, hne, h]
  · intro db id status hfound
    simp [putTicket, hfound]

/-- C2 witness: the three transitions at concrete open and closed
tickets, and the endpoint at a one-ticket store. -/
theorem ticket_close_reopen_messages_witness :
    ((applyStatus "T2" (some "closed") ticketOpen).messages =
        ticketOpen.messages ++ [{ sender := "admin", time := "T2",
                                  text := some closedText, attachment := none }] ∧
      (applyStatus "T2" (some "closed") ticketOpen).status = "closed") ∧
    applyStatus "T2" (some "closed") ticketClosed = { ticketClosed with status := "closed" } ∧
    (applyStatus "T2" (some "open") ticketClosed).messages =
      ticketClosed.messages ++ [{ sender := "admin", time := "T2",
                                  text := some reopenedText, attachment := none }] ∧
    (putTicket "t0" (some "closed") "T2" dbOneTicket).2.tickets =
      updateFirst (fun u => u.id == "t0") (applyStatus "T2" (some "closed")) dbOneTicket.tickets :=
  ⟨(ticket_close_reopen_messages "T2" ticketOpen).1 (by decide),
   (ticket_close_reopen_messages "T2" ticketClosed).2.1 (by decide),
   (ticket_close_reopen_messages "T2" ticketClosed).2.2.1 (by decide),
   (ticket_close_reopen_messages "T2" ticketOpen).2.2.2 dbOneTicket "t0" (some "closed") (by decide)⟩

/-- C1: for every client with a startDate and a duration, GET
`/api/clients` computes `daysLeft` as the ceiling of the millisecond gap
between `startDate + duration months` and now, divided by one day and
floored at `0`; a client that was active with nonpositive remaining days
has `active` flipped to `false`, and in that case the recomputed client
list is persisted back to the store. -/
theorem clients_days_left_and_expiry
    (endOf : String → Int → Int) (now : Int) (db : DB) (c : Client)
    (s : String) (d : Int) (hs : c.startDate = some s) (hd : c.duration = some d) :
    (getClients endOf now db).1 = db.clients.map (updateClient endOf now) ∧
    (updateClient endOf now c).daysLeft =
      some (max (ceilDiv (endOf s d - now) msPerDay) 0) ∧
    (c.active = true → ceilDiv (endOf s d - now) msPerDay ≤ 0 →
      (updateClient endOf now c).active = false ∧
      (c ∈ db.clients →
        (getClients endOf now db).2.clients = db.clients.map (updateClient endOf now))) := by
  refine ⟨rfl, ?_, ?_⟩
  · have hmax : ∀ x : Int, max x 0 = if x > 0 then x else 0 := by
      intro x
      rcases le_or_lt x 0 with h | h
      · rw [max_eq_right h, if_neg (by omega)]
      · rw [max_eq_left (by omega), if_pos h]
    simp only [updateClient, hs, hd]
    split <;> simp [hmax]
  · intro hactive hexp
    constructor
    · simp [updateClient, hs, hd, hactive, hexp]
    · intro hmem
      have hany : db.clients.any (clientFlips endOf now) = true := by
        rw [List.any_eq_true]
        refine ⟨c, hmem, ?_⟩
        simp [clientFlips, hs, hd, hactive, hexp]
      simp [getClients, hany]

/-- C1 witness: a client six months in whose subscription has expired
relative to the abstract month arithmetic `endOf = fun _ _ => 0` at
`now = 1`. -/
theorem clients_days_left_and_expiry_witness :
    (getClients (fun _ _ => 0) 1 dbOneClient).1 =
      dbOneClient.clients.map (updateClient (fun _ _ => 0) 1) ∧
    (updateClient (fun _ _ => 0) 1 clientSix).daysLeft =
      some (max (ceilDiv ((fun (_ : String) (_ : Int) => (0 : Int)) "2024-01-01" 6 - 1) msPerDay) 0) ∧
    ((clientSix.active = true → ceilDiv ((fun (_ : String) (_ : Int) => (0 : Int)) "2024-01-01" 6 - 1) msPerDay ≤ 0 →
      (updateClient (fun _ _ => 0) 1 clientSix).active = false ∧
      (clientSix ∈ dbOneClient.clients →
        (getClients (fun _ _ => 0) 1 dbOneClient).2.clients =
          dbOneClient.clients.map (updateClient (fun _ _ => 0) 1)))) :=
  clients_days_left_and_expiry (fun _ _ => 0) 1 dbOneClient clientSix "2024-01-01" 6 rfl rfl

/-- C4 counterexample: a body carrying a `file` but no `fileName` and no
`text` passes the `!text && !file` validation, yet the appended message
has neither text nor attachment, refuting the claim that every appended
message contains text, an attachment, or both. -/
theorem message_appended_without_text_or_attachment :
    (postTicketMessage 5 "T1" true "t0" { file := some "QUJD" } dbOneTicket).1 = .ok () ∧
    ((postTicketMessage 5 "T1" true "t0" { file := some "QUJD" } dbOneTicket).2.tickets.map
        Ticket.messages) =
      [[{ sender := "client", time := "T1", text := none, attachment := none }]] := by
  decide

/-- C4 amended: a request body providing neither text nor file is
rejected with a 400 validation error and the store is unchanged, and the
appended message contains text, an attachment, or both whenever the body
carried text, or carried both file and fileName with the write
succeeding; a body with file but no fileName (or whose attachment write
failed) and no text yields a message with neither. -/
theorem message_content_validation_amended
    (now : Nat) (nowIso : String) (writeOk : Bool) (id : String)
    (b : MsgBody) (db : DB) :
    (b.text = none ∧ b.file = none →
      postTicketMessage now nowIso writeOk id b db =
        (.badRequest "text or file required", db)) ∧
    (b.text ≠ none ∨ (b.file ≠ none ∧ b.fileName ≠ none ∧ writeOk = true) →
      (buildMsg now nowIso writeOk b).text ≠ none ∨
      (buildMsg now nowIso writeOk b).attachment ≠ none) ∧
    (¬(b.text = none ∧ b.file = none) → db.tickets.any (fun t => t.id == id) = true →
      (postTicketMessage now nowIso writeOk id b db).2.tickets =
        updateFirst (fun t => t.id == id)
          (fun t => { t with messages := t.messages ++ [buildMsg now nowIso writeOk b] })
          db.tickets) := by
  refine ⟨?_, ?_, ?_⟩
  · intro h
    simp [postTicketMessage, h.1, h.2]
  · intro h
    rcases h with h | ⟨hf, hfn, hw⟩
    · left
      simpa [buildMsg] using h
    · right
      rcases Option.ne_none_iff_exists.mp hf with ⟨f, hfe⟩
      rcases Option.ne_none_iff_exists.mp hfn with ⟨fn, hfne⟩
      simp [buildMsg, attachmentOf, ← hfe, ← hfne, hw]
  · intro hvalid hfound
    simp [postTicketMessage, hvalid, hfound]

/-- C4 amended witness: concrete instances of the three parts. -/
theorem message_content_validation_amended_witness :
    postTicketMessage 5 "T1" true "t0" {} dbOneTicket =
      (.badRequest "text or file required", dbOneTicket) ∧
    ((buildMsg 5 "T1" true { text := some "hi" }).text ≠ none ∨
      (buildMsg 5 "T1" true { text := some "hi" }).attachment ≠ none) ∧
    (postTicketMessage 5 "T1" true "t0" { text := some "hi" } dbOneTicket).2.tickets =
      updateFirst (fun t => t.id == "t0")
        (fun t => { t with messages := t.messages ++ [buildMsg 5 "T1" true { text := some "hi" }] })
        dbOneTicket.tickets :=
  ⟨(message_content_validation_amended 5 "T1" true "t0" {} dbOneTicket).1 (by decide),
   (message_content_validation_amended 5 "T1" true "t0" { text := some "hi" } dbOneTicket).2.1
     (by left; decide),
   (message_content_validation_amended 5 "T1" true "t0" { text := some "hi" } dbOneTicket).2.2
     (by decide) (by decide)⟩

/-- C3: GET `/api/user/ticket` returns, among the tickets matching the
given email and password exactly, one achieving the latest `created`
timestamp (the head of the stable descending sort); when nothing matches
it returns the 404 not-found error; the store is never rewritten. -/
theorem user_ticket_returns_latest_match
    (timeOf : String → Int) (email password : String) (db : DB)
    (he : email ≠ "") (hp : password ≠ "") :
    (db.tickets.filter (fun t => t.email == email && t.password == password) = [] →
      userTicket timeOf email password db = (.notFound "no tickets found", db)) ∧
    (db.tickets.filter (fun t => t.email == email && t.password == password) ≠ [] →
      ∃ t, (userTicket timeOf email password db).1 = .ok t ∧
        t ∈ db.tickets.filter (fun t => t.email == email && t.password == password) ∧
        ∀ u ∈ db.tickets.filter (fun t => t.email == email && t.password == password),
          timeOf u.created ≤ timeOf t.created) ∧
    (userTicket timeOf email password db).2 = db := by
  have hval : ¬(email = "" ∨ password = "") := by
    rintro (h | h)
    · exact he h
    · exact hp h
  refine ⟨?_, ?_, ?_⟩
  · intro hnil
    simp [userTicket, hval, hnil]
  · intro hne
    have hempty : (db.tickets.filter (fun t => t.email == email && t.password == password)).isEmpty = false := by
      rcases hfe : db.tickets.filter (fun t => t.email == email && t.password == password) with _ | ⟨a, as⟩
      · exact absurd hfe hne
      · rw [hfe]
        rfl
    have htrans : ∀ a b c : Ticket,
        (fun a b : Ticket => decide (timeOf b.created ≤ timeOf a.created)) a b = true →
        (fun a b : Ticket => decide (timeOf b.created ≤ timeOf a.created)) b c = true →
        (fun a b : Ticket => decide (timeOf b.created ≤ timeOf a.created)) a c = true := by
      intro a b c hab hbc
      simp only [decide_eq_true_eq] at hab hbc ⊢
      exact le_trans hbc hab
    have htotal : ∀ a b : Ticket,
        ((fun a b : Ticket => decide (timeOf b.created ≤ timeOf a.created)) a b ||
         (fun a b : Ticket => decide (timeOf b.created ≤ timeOf a.created)) b a) = true := by
      intro a b
      simp only [Bool.or_eq_true, decide_eq_true_eq]
      exact le_total (timeOf b.created) (timeOf a.created)
    rcases hsorted : (db.tickets.filter (fun t => t.email == email && t.password == password)).mergeSort
        (fun a b => decide (timeOf b.created ≤ timeOf a.created)) with _ | ⟨t, rest⟩
    · have hperm := List.mergeSort_perm
        (db.tickets.filter (fun t => t.email == email && t.password == password))
        (fun a b => decide (timeOf b.created ≤ timeOf a.created))
      rw [hsorted] at hperm
      exact absurd hperm.symm.eq_nil hne
    · refine ⟨t, ?_, ?_, ?_⟩
      · simp [userTicket, hval, hempty, hsorted]
      · have hmem : t ∈ (db.tickets.filter (fun t => t.email == email && t.password == password)).mergeSort
            (fun a b => decide (timeOf b.created ≤ timeOf a.created)) := by
          rw [hsorted]
          exact List.mem_cons_self t rest
        exact List.mem_mergeSort.mp hmem
      · intro u hu
        have hpw := List.sorted_mergeSort htrans htotal
          (db.tickets.filter (fun t => t.email == email && t.password == password))
        rw [hsorted] at hpw
        have hu2 : u ∈ t :: rest := by
          rw [← hsorted]
          exact List.mem_mergeSort.mpr hu
        rcases List.mem_cons.mp hu2 with hut | hur
        · rw [hut]
        · have hrel := List.rel_of_pairwise_cons hpw hur
          exact of_decide_eq_true hrel
  · simp only [userTicket, if_neg hval]
    split
    · rfl
    · split <;> rfl

/-- C3 witness: the lookup at a store holding two tickets with the same
credentials, with `new Date(s).getTime()` abstracted by string length. -/
theorem user_ticket_returns_latest_match_witness :
    (dbTwoTickets.tickets.filter (fun t => t.email == "a@b.c" && t.password == "pw") = [] →
      userTicket (fun s => (s.length : Int)) "a@b.c" "pw" dbTwoTickets =
        (.notFound "no tickets found", dbTwoTickets)) ∧
    (dbTwoTickets.tickets.filter (fun t => t.email == "a@b.c" && t.password == "pw") ≠ [] →
      ∃ t, (userTicket (fun s => (s.length : Int)) "a@b.c" "pw" dbTwoTickets).1 = .ok t ∧
        t ∈ dbTwoTickets.tickets.filter (fun t => t.email == "a@b.c" && t.password == "pw") ∧
        ∀ u ∈ dbTwoTickets.tickets.filter (fun t => t.email == "a@b.c" && t.password == "pw"),
          (u.created.length : Int) ≤ (t.created.length : Int)) ∧
    (userTicket (fun s => (s.length : Int)) "a@b.c" "pw" dbTwoTickets).2 = dbTwoTickets :=
  user_ticket_returns_latest_match (fun s => (s.length : Int)) "a@b.c" "pw" dbTwoTickets
    (by decide) (by decide)

lemma mem_updateFirst {α : Type} {p : α → Bool} {f : α → α} :
    ∀ {l : List α} {x : α}, x ∈ updateFirst p f l → x ∈ l ∨ ∃ a, a ∈ l ∧ x = f a := by
  intro l
  induction l with
  | nil => intro x hx; simp [updateFirst] at hx
  | cons a as ih =>
    intro x hx
    simp only [updateFirst] at hx
    split at hx
    · rcases List.mem_cons.mp hx with h | h
      · exact Or.inr ⟨a, List.mem_cons_self a as, h⟩
      · exact Or.inl (List.mem_cons_of_mem a h)
    · rcases List.mem_cons.mp hx with h | h
      · exact Or.inl (by rw [h]; exact List.mem_cons_self a as)
      · rcases ih h with h2 | ⟨b, hb, hxb⟩
        · exact Or.inl (List.mem_cons_of_mem a h2)
        · exact Or.inr ⟨b, List.mem_cons_of_mem a hb, hxb⟩

lemma updateFirst_map {α β : Type} (g : α → β) (p : α → Bool) (f : α → α)
    (hf : ∀ a, g (f a) = g a) :
    ∀ l : List α, (updateFirst p f l).map g = l.map g := by
  intro l
  induction l with
  | nil => rfl
  | cons a as ih =>
    simp only [updateFirst]
    split
    · simp [hf]
    · simp [ih]

lemma applyStatus_id (nowIso : String) (status : Option String) (t : Ticket) :
    (applyStatus nowIso status t).id = t.id := by
  cases status with
  | none => rfl
  | some st =>
    simp only [applyStatus]
    split_ifs <;> rfl

lemma applyStatus_status (nowIso : String) (st : String) (t : Ticket) :
    (applyStatus nowIso (some st) t).status = st := by
  simp only [applyStatus]
  split_ifs <;> rfl

lemma step_tickets_id_sub (op : Op) (db : DB) :
    ((step op db).tickets.map Ticket.id).Sublist
      (db.tickets.map Ticket.id ++ ticketTokens [op]) := by
  cases op with
  | clientPost b now today =>
    simp only [step, postClient, ticketTokens]
    split <;> simp
  | clientsGet endOf now =>
    simp only [step, getClients, ticketTokens]
    split <;> simp
  | programPost b now =>
    simp only [step, postProgram, ticketTokens]
    rcases b.title with _ | t <;> simp
  | supportPost b now nowIso writeOk =>
    simp only [step, supportCreate, ticketTokens]
    split
    · simp [List.sublist_append_left]
    · simp
  | ticketMsg id b now nowIso writeOk =>
    simp only [step, postTicketMessage, ticketTokens]
    split
    · simp
    · split
      · have hmapf := updateFirst_map Ticket.id (fun t => t.id == id)
          (fun t => { t with messages := t.messages ++ [buildMsg now nowIso writeOk b] })
          (fun t => rfl) db.tickets
        simp [hmapf]
      · simp
  | ticketPut id status nowIso =>
    simp only [step, putTicket, ticketTokens]
    split
    · have hmapf := updateFirst_map Ticket.id (fun t => t.id == id)
        (applyStatus nowIso status) (applyStatus_id nowIso status) db.tickets
      simp [hmapf]
    · simp
  | ticketDelete id =>
    simp only [step, deleteTicket, ticketTokens]
    split
    · simpa using (List.eraseP_sublist db.tickets).map Ticket.id
    · simp
  | recipePost b now =>
    simp only [step, postRecipe, ticketTokens]
    rcases b.title with _ | t <;> simp
  | recipePut id b =>
    simp only [step, putRecipe, ticketTokens]
    split <;> simp
  | recipeDelete id =>
    simp only [step, deleteRecipe, ticketTokens]
    split <;> simp

lemma updateClient_id (endOf : String → Int → Int) (now : Int) (c : Client) :
    (updateClient endOf now c).id = c.id := by
  unfold updateClient
  split
  · dsimp only
    split <;> rfl
  · rfl

lemma step_clients_id_sub (op : Op) (db : DB) :
    ((step op db).clients.map Client.id).Sublist
      (db.clients.map Client.id ++ clientTokens [op]) := by
  cases op with
  | clientPost b now today =>
    simp only [step, postClient, clientTokens]
    split
    · simp [List.sublist_append_left]
    · simp
  | clientsGet endOf now =>
    simp only [step, getClients, clientTokens]
    split
    · simp [List.map_map, Function.comp_def, updateClient_id]
    · simp
  | programPost b now =>
    simp only [step, postProgram, clientTokens]
    rcases b.title with _ | t <;> simp
  | supportPost b now nowIso writeOk =>
    simp only [step, supportCreate, clientTokens]
    split <;> simp
  | ticketMsg id b now nowIso writeOk =>
    simp only [step, postTicketMessage, clientTokens]
    split
    · simp
    · split <;> simp
  | ticketPut id status nowIso =>
    simp only [step, putTicket, clientTokens]
    split <;> simp
  | ticketDelete id =>
    simp only [step, deleteTicket, clientTokens]
    split <;> simp
  | recipePost b now =>
    simp only [step, postRecipe, clientTokens]
    rcases b.title with _ | t <;> simp
  | recipePut id b =>
    simp only [step, putRecipe, clientTokens]
    split <;> simp
  | recipeDelete id =>
    simp only [step, deleteRecipe, clientTokens]
    split <;> simp

lemma step_programs_id_sub (op : Op) (db : DB) :
    ((step op db).programs.map Program.id).Sublist
      (db.programs.map Program.id ++ programTokens [op]) := by
  cases op with
  | clientPost b now today =>
    simp only [step, postClient, programTokens]
    split <;> simp
  | clientsGet endOf now =>
    simp only [step, getClients, programTokens]
    split <;> simp
  | programPost b now =>
    simp only [step, postProgram, programTokens]
    rcases b.title with _ | t
    · simp [List.sublist_append_left]
    · simp
  | supportPost b now nowIso writeOk =>
    simp only [step, supportCreate, programTokens]
    split <;> simp
  | ticketMsg id b now nowIso writeOk =>
    simp only [step, postTicketMessage, programTokens]
    split
    · simp
    · split <;> simp
  | ticketPut id status nowIso =>
    simp only [step, putTicket, programTokens]
    split <;> simp
  | ticketDelete id =>
    simp only [step, deleteTicket, programTokens]
    split <;> simp
  | recipePost b now =>
    simp only [step, postRecipe, programTokens]
    rcases b.title with _ | t <;> simp
  | recipePut id b =>
    simp only [step, putRecipe, programTokens]
    split <;> simp
  | recipeDelete id =>
    simp only [step, deleteRecipe, programTokens]
    split <;> simp

lemma step_recipes_id_sub (op : Op) (db : DB) :
    ((step op db).recipes.map Recipe.id).Sublist
      (db.recipes.map Recipe.id ++ recipeTokens [op]) := by
  cases op with
  | clientPost b now today =>
    simp only [step, postClient, recipeTokens]
    split <;> simp
  | clientsGet endOf now =>
    simp only [step, getClients, recipeTokens]
    split <;> simp
  | programPost b now =>
    simp only [step, postProgram, recipeTokens]
    rcases b.title with _ | t <;> simp
  | supportPost b now nowIso writeOk =>
    simp only [step, supportCreate, recipeTokens]
    split <;> simp
  | ticketMsg id b now nowIso writeOk =>
    simp only [step, postTicketMessage, recipeTokens]
    split
    · simp
    · split <;> simp
  | ticketPut id status nowIso =>
    simp only [step, putTicket, recipeTokens]
    split <;> simp
  | ticketDelete id =>
    simp only [step, deleteTicket, recipeTokens]
    split <;> simp
  | recipePost b now =>
    simp only [step, postRecipe, recipeTokens]
    rcases b.title with _ | t
    · simp [List.sublist_append_left]
    · simp
  | recipePut id b =>
    simp only [step, putRecipe, recipeTokens]
    split
    · have hmapf := updateFirst_map Recipe.id (fun r => r.id == id)
        (fun r =>
          { r with title := b.title.getD r.title,
                   ingredients := b.ingredients.getD r.ingredients,
                   instructions := b.instructions.getD r.instructions,
                   image := b.image.getD r.image })
        (fun r => rfl) db.recipes
      simp [hmapf]
    · simp
  | recipeDelete id =>
    simp only [step, deleteRecipe, recipeTokens]
    split
    · simpa using (List.eraseP_sublist db.recipes).map Recipe.id
    · simp

lemma clientTokens_cons (op : Op) (ops : List Op) :
    clientTokens (op :: ops) = clientTokens [op] ++ clientTokens ops := by
  cases op <;> simp [clientTokens]

lemma programTokens_cons (op : Op) (ops : List Op) :
    programTokens (op :: ops) = programTokens [op] ++ programTokens ops := by
  cases op <;> simp [programTokens]

lemma ticketTokens_cons (op : Op) (ops : List Op) :
    ticketTokens (op :: ops) = ticketTokens [op] ++ ticketTokens ops := by
  cases op <;> simp [ticketTokens]

lemma recipeTokens_cons (op : Op) (ops : List Op) :
    recipeTokens (op :: ops) = recipeTokens [op] ++ recipeTokens ops := by
  cases op <;> simp [recipeTokens]

lemma run_clients_id_sub (ops : List Op) : ∀ db : DB,
    ((run ops db).clients.map Client.id).Sublist
      (db.clients.map Client.id ++ clientTokens ops) := by
  induction ops with
  | nil => intro db; simp [run, clientTokens]
  | cons op ops ih =>
    intro db
    have h1 := ih (step op db)
    have h3 := (step_clients_id_sub op db).append_right (clientTokens ops)
    rw [show run (op :: ops) db = run ops (step op db) from rfl,
        clientTokens_cons, ← List.append_assoc]
    exact h1.trans h3

lemma run_programs_id_sub (ops : List Op) : ∀ db : DB,
    ((run ops db).programs.map Program.id).Sublist
      (db.programs.map Program.id ++ programTokens ops) := by
  induction ops with
  | nil => intro db; simp [run, programTokens]
  | cons op ops ih =>
    intro db
    have h1 := ih (step op db)
    have h3 := (step_programs_id_sub op db).append_right (programTokens ops)
    rw [show run (op :: ops) db = run ops (step op db) from rfl,
        programTokens_cons, ← List.append_assoc]
    exact h1.trans h3

lemma run_tickets_id_sub (ops : List Op) : ∀ db : DB,
    ((run ops db).tickets.map Ticket.id).Sublist
      (db.tickets.map Ticket.id ++ ticketTokens ops) := by
  induction ops with
  | nil => intro db; simp [run, ticketTokens]
  | cons op ops ih =>
    intro db
    have h1 := ih (step op db)
    have h3 := (step_tickets_id_sub op db).append_right (ticketTokens ops)
    rw [show run (op :: ops) db = run ops (step op db) from rfl,
        ticketTokens_cons, ← List.append_assoc]
    exact h1.trans h3

lemma run_recipes_id_sub (ops : List Op) : ∀ db : DB,
    ((run ops db).recipes.map Recipe.id).Sublist
      (db.recipes.map Recipe.id ++ recipeTokens ops) := by
  induction ops with
  | nil => intro db; simp [run, recipeTokens]
  | cons op ops ih =>
    intro db
    have h1 := ih (step op db)
    have h3 := (step_recipes_id_sub op db).append_right (recipeTokens ops)
    rw [show run (op :: ops) db = run ops (step op db) from rfl,
        recipeTokens_cons, ← List.append_assoc]
    exact h1.trans h3

/-- C7 counterexample: two client creations that observe the same
`Date.now()` millisecond store two clients with the same id, refuting
unconditional id uniqueness. -/
theorem same_millisecond_creates_duplicate_ids :
    ((run [.clientPost { name := "A", email := "a@x.y" } 5 "D0",
           .clientPost { name := "B", email := "b@x.y" } 5 "D0"] initialDB).clients.map
        Client.id) = ["5", "5"] ∧
    ¬ ((run [.clientPost { name := "A", email := "a@x.y" } 5 "D0",
             .clientPost { name := "B", email := "b@x.y" } 5 "D0"] initialDB).clients.map
          Client.id).Nodup := by
  decide

/-- C7 amended: starting from the initial empty store, after any sequence
of API operations every entity id is unique within its collection and
stems from the time-based token of the operation that created it,
provided the creation operations of each collection observed pairwise
distinct `Date.now()` tokens (same-millisecond creations may collide). -/
theorem entity_ids_unique_amended (ops : List Op)
    (hc : (clientTokens ops).Nodup) (hp : (programTokens ops).Nodup)
    (ht : (ticketTokens ops).Nodup) (hr : (recipeTokens ops).Nodup) :
    ((run ops initialDB).clients.map Client.id).Nodup ∧
    ((run ops initialDB).programs.map Program.id).Nodup ∧
    ((run ops initialDB).tickets.map Ticket.id).Nodup ∧
    ((run ops initialDB).recipes.map Recipe.id).Nodup ∧
    ((run ops initialDB).clients.map Client.id).Sublist (clientTokens ops) ∧
    ((run ops initialDB).programs.map Program.id).Sublist (programTokens ops) ∧
    ((run ops initialDB).tickets.map Ticket.id).Sublist (ticketTokens ops) ∧
    ((run ops initialDB).recipes.map Recipe.id).Sublist (recipeTokens ops) := by
  have hcs : ((run ops initialDB).clients.map Client.id).Sublist (clientTokens ops) := by
    simpa [initialDB] using run_clients_id_sub ops initialDB
  have hps : ((run ops initialDB).programs.map Program.id).Sublist (programTokens ops) := by
    simpa [initialDB] using run_programs_id_sub ops initialDB
  have hts : ((run ops initialDB).tickets.map Ticket.id).Sublist (ticketTokens ops) := by
    simpa [initialDB] using run_tickets_id_sub ops initialDB
  have hrs : ((run ops initialDB).recipes.map Recipe.id).Sublist (recipeTokens ops) := by
    simpa [initialDB] using run_recipes_id_sub ops initialDB
  exact ⟨hcs.nodup hc, hps.nodup hp, hts.nodup ht, hrs.nodup hr, hcs, hps, hts, hrs⟩

/-- C7 amended witness: a run creating one entity of each kind at
distinct milliseconds. -/
theorem entity_ids_unique_amended_witness :
    ((run [.clientPost { name := "A", email := "a@x.y" } 5 "D0",
           .programPost { title := some "P" } 6,
           .supportPost { email := "a@b.c", password := "pw" } 7 "T0" true,
           .recipePost { title := some "R" } 8] initialDB).clients.map Client.id).Nodup ∧
    ((run [.clientPost { name := "A", email := "a@x.y" } 5 "D0",
           .programPost { title := some "P" } 6,
           .supportPost { email := "a@b.c", password := "pw" } 7 "T0" true,
           .recipePost { title := some "R" } 8] initialDB).programs.map Program.id).Nodup ∧
    ((run [.clientPost { name := "A", email := "a@x.y" } 5 "D0",
           .programPost { title := some "P" } 6,
           .supportPost { email := "a@b.c", password := "pw" } 7 "T0" true,
           .recipePost { title := some "R" } 8] initialDB).tickets.map Ticket.id).Nodup ∧
    ((run [.clientPost { name := "A", email := "a@x.y" } 5 "D0",
           .programPost { title := some "P" } 6,
           .supportPost { email := "a@b.c", password := "pw" } 7 "T0" true,
           .recipePost { title := some "R" } 8] initialDB).recipes.map Recipe.id).Nodup ∧
    ((run [.clientPost { name := "A", email := "a@x.y" } 5 "D0",
           .programPost { title := some "P" } 6,
           .supportPost { email := "a@b.c", password := "pw" } 7 "T0" true,
           .recipePost { title := some "R" } 8] initialDB).clients.map Client.id).Sublist
      (clientTokens [.clientPost { name := "A", email := "a@x.y" } 5 "D0",
           .programPost { title := some "P" } 6,
           .supportPost { email := "a@b.c", password := "pw" } 7 "T0" true,
           .recipePost { title := some "R" } 8]) ∧
    ((run [.clientPost { name := "A", email := "a@x.y" } 5 "D0",
           .programPost { title := some "P" } 6,
           .supportPost { email := "a@b.c", password := "pw" } 7 "T0" true,
           .recipePost { title := some "R" } 8] initialDB).programs.map Program.id).Sublist
      (programTokens [.clientPost { name := "A", email := "a@x.y" } 5 "D0",
           .programPost { title := some "P" } 6,
           .supportPost { email := "a@b.c", password := "pw" } 7 "T0" true,
           .recipePost { title := some "R" } 8]) ∧
    ((run [.clientPost { name := "A", email := "a@x.y" } 5 "D0",
           .programPost { title := some "P" } 6,
           .supportPost { email := "a@b.c", password := "pw" } 7 "T0" true,
           .recipePost { title := some "R" } 8] initialDB).tickets.map Ticket.id).Sublist
      (ticketTokens [.clientPost { name := "A", email := "a@x.y" } 5 "D0",
           .programPost { title := some "P" } 6,
           .supportPost { email := "a@b.c", password := "pw" } 7 "T0" true,
           .recipePost { title := some "R" } 8]) ∧
    ((run [.clientPost { name := "A", email := "a@x.y" } 5 "D0",
           .programPost { title := some "P" } 6,
           .supportPost { email := "a@b.c", password := "pw" } 7 "T0" true,
           .recipePost { title := some "R" } 8] initialDB).recipes.map Recipe.id).Sublist
      (recipeTokens [.clientPost { name := "A", email := "a@x.y" } 5 "D0",
           .programPost { title := some "P" } 6,
           .supportPost { email := "a@b.c", password := "pw" } 7 "T0" true,
           .recipePost { title := some "R" } 8]) :=
  entity_ids_unique_amended
    [.clientPost { name := "A", email := "a@x.y" } 5 "D0",
     .programPost { title := some "P" } 6,
     .supportPost { email := "a@b.c", password := "pw" } 7 "T0" true,
     .recipePost { title := some "R" } 8]
    (by decide) (by decide) (by decide) (by decide)

lemma step_ticket_status (op : Op) (db : DB)
    (hop : statusAllowed op = true)
    (hdb : ∀ t ∈ db.tickets, t.status = "open" ∨ t.status = "closed") :
    ∀ t ∈ (step op db).tickets, t.status = "open" ∨ t.status = "closed" := by
  cases op with
  | clientPost b now today =>
    intro t htm
    apply hdb
    simp only [step, postClient] at htm
    split at htm <;> exact htm
  | clientsGet endOf now =>
    intro t htm
    apply hdb
    simp only [step, getClients] at htm
    split at htm <;> exact htm
  | programPost b now =>
    intro t htm
    apply hdb
    simp only [step, postProgram] at htm
    split at htm <;> exact htm
  | supportPost b now nowIso writeOk =>
    intro t htm
    simp only [step, supportCreate] at htm
    split at htm
    · exact hdb t htm
    · rcases List.mem_append.mp htm with h | h
      · exact hdb t h
      · left
        rw [List.mem_singleton.mp h]
  | ticketMsg id b now nowIso writeOk =>
    intro t htm
    simp only [step, postTicketMessage] at htm
    split at htm
    · exact hdb t htm
    · split at htm
      · rcases mem_updateFirst htm with h | ⟨a, ha, hta⟩
        · exact hdb t h
        · rw [hta]
          exact hdb a ha
      · exact hdb t htm
  | ticketPut id status nowIso =>
    intro t htm
    simp only [step, putTicket] at htm
    split at htm
    · rcases mem_updateFirst htm with h | ⟨a, ha, hta⟩
      · exact hdb t h
      · rcases status with _ | st
        · rw [hta]
          exact hdb a ha
        · simp only [statusAllowed] at hop
          rw [hta, applyStatus_status]
          simp only [Bool.or_eq_true, beq_iff_eq] at hop
          rcases hop with (h | h) | h
          · exact absurd h (by simp)
          · left
            exact Option.some.inj h
          · right
            exact Option.some.inj h
    · exact hdb t htm
  | ticketDelete id =>
    intro t htm
    simp only [step, deleteTicket] at htm
    split at htm
    · exact hdb t ((List.eraseP_sublist db.tickets).mem htm)
    · exact hdb t htm
  | recipePost b now =>
    intro t htm
    apply hdb
    simp only [step, postRecipe] at htm
    split at htm <;> exact htm
  | recipePut id b =>
    intro t htm
    apply hdb
    simp only [step, putRecipe] at htm
    split at htm <;> exact htm
  | recipeDelete id =>
    intro t htm
    apply hdb
    simp only [step, deleteRecipe] at htm
    split at htm <;> exact htm

/-- C6 counterexample: PUT `/api/tickets/:id` stores whatever truthy
status the body carries, so a run submitting status `resolved` leaves a
persisted ticket whose status is neither `open` nor `closed`. -/
theorem put_stores_arbitrary_status :
    ¬ (∀ t ∈ (run [.supportPost { email := "a@b.c", password := "pw" } 5 "T0" true,
                   .ticketPut "5" (some "resolved") "T1"] initialDB).tickets,
          t.status = "open" ∨ t.status = "closed") := by
  decide

/-- C6 amended: starting from the initial empty store, after any sequence
of API operations in which every PUT `/api/tickets/:id` submits only
`open` or `closed` (or no status), every persisted ticket has status
`open` or `closed`; PUT itself stores any truthy status verbatim. -/
theorem ticket_status_open_or_closed_amended (ops : List Op)
    (hops : ∀ op ∈ ops, statusAllowed op = true) :
    ∀ t ∈ (run ops initialDB).tickets, t.status = "open" ∨ t.status = "closed" := by
  have hgen : ∀ (ops2 : List Op) (db : DB), (∀ op ∈ ops2, statusAllowed op = true) →
      (∀ t ∈ db.tickets, t.status = "open" ∨ t.status = "closed") →
      ∀ t ∈ (run ops2 db).tickets, t.status = "open" ∨ t.status = "closed" := by
    intro ops2
    induction ops2 with
    | nil => intro db _ hdb; exact hdb
    | cons op ops2 ih =>
      intro db hall hdb
      exact ih (step op db) (fun o ho => hall o (List.mem_cons_of_mem op ho))
        (step_ticket_status op db (hall op (List.mem_cons_self op ops2)) hdb)
  exact hgen ops initialDB hops (by intro t htm; simp [initialDB] at htm)

/-- C6 amended witness: a run that opens a ticket, closes it and reopens
it, submitting only allowed statuses. -/
theorem ticket_status_open_or_closed_amended_witness :
    ((run [.supportPost { email := "a@b.c", password := "pw" } 5 "T0" true,
           .ticketPut "5" (some "closed") "T1",
           .ticketPut "5" (some "open") "T2"] initialDB).tickets.all
        (fun t => t.status == "open" || t.status == "closed")) = true := by
  rw [List.all_eq_true]
  intro t ht
  have h := ticket_status_open_or_closed_amended
    [.supportPost { email := "a@b.c", password := "pw" } 5 "T0" true,
     .ticketPut "5" (some "closed") "T1",
     .ticketPut "5" (some "open") "T2"]
    (by decide) t ht
  simpa using h

lemma foldl_normStep_no_dotdot : ∀ (cs stack : List String),
    ".." ∉ stack → ".." ∉ cs.foldl (normStep false) stack := by
  intro cs
  induction cs with
  | nil => exact fun stack h => h
  | cons c cs ih =>
    intro stack h
    rw [List.foldl_cons]
    apply ih
    simp only [normStep]
    split
    · exact h
    · split
      · rcases stack with _ | ⟨top, rest⟩
        · simp
        · have htop : top ≠ ".." :=
            fun hcon => h (by rw [hcon]; exact List.mem_cons_self _ _)
          simp only [if_neg htop]
          exact fun hm => h (List.mem_cons_of_mem top hm)
      · rename_i hnotdots
        intro hm
        rcases List.mem_cons.mp hm with hm | hm
        · exact hnotdots hm.symm
        · exact h hm

lemma foldl_normStep_plain (b : Bool) : ∀ (cs stack : List String),
    (∀ c ∈ cs, plainComponent c = true) →
    cs.foldl (normStep b) stack = cs.reverse ++ stack := by
  intro cs
  induction cs with
  | nil => intro stack _; simp
  | cons c cs ih =>
    intro stack hall
    have hc := hall c (List.mem_cons_self c cs)
    simp only [plainComponent, Bool.not_eq_true', Bool.or_eq_false_iff,
      beq_eq_false_iff_ne, ne_eq] at hc
    rw [List.foldl_cons]
    rw [show normStep b stack c = c :: stack from by
      simp [normStep, hc.1.1, hc.1.2, hc.2]]
    rw [ih (c :: stack) (fun x hx => hall x (List.mem_cons_of_mem c hx))]
    simp

lemma foldl_normStep_extends (b : Bool) : ∀ (cs stack : List String),
    ".." ∉ cs → ∃ pushed, cs.foldl (normStep b) stack = pushed ++ stack := by
  intro cs
  induction cs with
  | nil => exact fun stack _ => ⟨[], rfl⟩
  | cons c cs ih =>
    intro stack hnc
    have hc : c ≠ ".." := fun hcon => hnc (by rw [hcon]; exact List.mem_cons_self _ _)
    have hcs : ".." ∉ cs := fun hm => hnc (List.mem_cons_of_mem c hm)
    rw [List.foldl_cons]
    by_cases hskip : c = "" ∨ c = "."
    · rw [show normStep b stack c = stack from by simp [normStep, hskip]]
      exact ih stack hcs
    · rw [show normStep b stack c = c :: stack from by simp [normStep, hskip, hc]]
      rcases ih (c :: stack) hcs with ⟨pushed, hp⟩
      exact ⟨pushed ++ [c], by rw [hp]; simp⟩

lemma isPrefixOf_append_self : ∀ (l t : List String), l.isPrefixOf (l ++ t) = true := by
  intro l t
  induction l with
  | nil => simp [List.isPrefixOf]
  | cons a as ih => simp [List.isPrefixOf, ih]

/-- C5 counterexample: the legal absolute-form request target
`http://evil/../../../x` does not start with `/api/`, so it reaches the
static responder, where `path.normalize` keeps the surplus `..`
components of a relative path and the join escapes the public root
(`<public>/../x`): the file read is `/srv/app/x`, outside
`/srv/app/public`. -/
theorem static_escape_counterexample :
    strStartsWith "http://evil/../../../x" "/api/" = false ∧
    serveStaticResolved ["srv", "app", "public"] "http://evil/../../../x" =
      ["srv", "app", "x"] ∧
    underDir ["srv", "app", "public"]
      (serveStaticResolved ["srv", "app", "public"] "http://evil/../../../x") = false := by
  decide

/-- C5 amended: for every request whose URL starts with `/` (every
origin-form request target), the file the static responder resolves lies
at or beneath the public root: normalizing an absolute path discards all
surplus `..` components, so the stripped path cannot climb out of the
join.  Request targets not starting with `/`, such as absolute-form
URLs, are not confined. -/
theorem static_resolution_stays_under_public (publicDir : List String) (url : String)
    (hpub : ∀ c ∈ publicDir, plainComponent c = true)
    (habs : strStartsWith url "/" = true) :
    underDir publicDir (serveStaticResolved publicDir url) = true := by
  have hreq : strStartsWith (if url = "/" ∨ url = "" then "/index.html" else url) "/" = true := by
    split
    · decide
    · exact habs
  have hsafe : ".." ∉ normalizeComponents true
      (pathComponents (if url = "/" ∨ url = "" then "/index.html" else url)) := by
    intro hm
    rw [normalizeComponents] at hm
    simp only [Bool.not_true] at hm
    exact foldl_normStep_no_dotdot
      (pathComponents (if url = "/" ∨ url = "" then "/index.html" else url)) [] (by simp)
      (List.mem_reverse.mp hm)
  rcases foldl_normStep_extends false
      (normalizeComponents true (pathComponents (if url = "/" ∨ url = "" then "/index.html" else url)))
      publicDir.reverse hsafe with ⟨pushed, hp⟩
  have hres : serveStaticResolved publicDir url = publicDir ++ pushed.reverse := by
    simp only [serveStaticResolved, hreq]
    rw [normalizeComponents]
    simp only [Bool.not_true]
    rw [List.foldl_append]
    rw [foldl_normStep_plain false publicDir [] hpub]
    rw [List.append_nil]
    rw [hp]
    rw [List.reverse_append, List.reverse_reverse]
  rw [hres]
  exact isPrefixOf_append_self publicDir pushed.reverse

/-- C5 amended witness: a traversal attempt with `..` segments and a
doubled slash, starting with `/`, stays under the public root. -/
theorem static_resolution_stays_under_public_witness :
    underDir ["srv", "app", "public"]
      (serveStaticResolved ["srv", "app", "public"] "/../..//etc/passwd") = true :=
  static_resolution_stays_under_public ["srv", "app", "public"] "/../..//etc/passwd"
    (by decide) (by decide)
